import Mathlib

/-!
Verification development for the fature-mlm-service-v2 distribution engine.

The definitions below are a shallow embedding of the JavaScript source:
  * `MLMModel` (hierarchy table `mlm_hierarchy` and its operations
    `upsertAffiliate`, `updateAffiliateParent`, `updateDescendants`,
    `getAffiliateUpline`, `updateAffiliateStatistics`),
  * `MLMService` (`validateCpa`, `calculateDistributions`,
    `executeCpaDistribution`, `updateStatistics`,
    `processCpaForDistribution`),
  * `ConfigClient` (fallback defaults on provider failure).

Monetary values (JS numbers holding decimal currency amounts) are modelled
as rationals; database rows are modelled as lists of records.  SQL queries
are translated under the schema constraint `UNIQUE (affiliate_id)` of
`mlm_hierarchy` (a lookup by id returns at most one row); where a proof
needs that constraint it carries an explicit no-duplicate hypothesis.
-/

/-- One row of the `mlm_hierarchy` table (columns used by the engine;
`active` has schema default TRUE, inserts do not set it). -/
structure Row where
  affiliate_id : Nat
  parent_id : Option Nat
  level : Nat
  path : List Nat
  active : Bool
deriving DecidableEq, Repr

/-- The hierarchy table: a list of rows. -/
abbrev HierDb := List Row

/-- Query `SELECT * FROM mlm_hierarchy WHERE affiliate_id = $1` (first row). -/
def findRow (db : HierDb) (id : Nat) : Option Row :=
  db.find? (fun r => r.affiliate_id == id)

/-- Query `SELECT ... FROM mlm_hierarchy WHERE affiliate_id = $1 AND active = true`
(first row). -/
def findActiveRow (db : HierDb) (id : Nat) : Option Row :=
  db.find? (fun r => r.affiliate_id == id && r.active)

/-- Query `UPDATE mlm_hierarchy SET ... WHERE affiliate_id = $id`: rewrite every
row whose id matches (at most one under the schema unique constraint). -/
def setRow (db : HierDb) (id : Nat) (f : Row → Row) : HierDb :=
  db.map (fun r => if r.affiliate_id == id then f r else r)

/-- Insertion step for the `ORDER BY array_length(path, 1)` sort used by
`updateDescendants` (SQL leaves the order of equal lengths unspecified). -/
def insertByLen (r : Row) : List Row → List Row
  | [] => [r]
  | x :: xs =>
    if x.path.length ≤ r.path.length then x :: insertByLen r xs
    else r :: x :: xs

/-- Sort rows by ascending materialized-path length. -/
def sortByPathLen : List Row → List Row
  | [] => []
  | x :: xs => insertByLen x (sortByPathLen xs)

/-- One iteration of the `updateDescendants` loop: given the snapshot pair
(descendant id, its parent id), look the parent up in the *current* table
(`WHERE affiliate_id = $1 AND active = true`) and, when found, rewrite the
descendant's `level`/`path` from the parent's current values.  A null
parent id matches no row, so the descendant is left untouched. -/
def updDescStep (db : HierDb) (pair : Nat × Option Nat) : HierDb :=
  match pair.2 with
  | none => db
  | some p =>
    match findActiveRow db p with
    | none => db
    | some parent =>
      setRow db pair.1
        (fun r => { r with level := parent.level + 1
                           path := parent.path ++ [pair.1] })

/-- Embedding of `MLMModel.updateDescendants(client, affiliateId)`: snapshot every active
row whose `path` contains `affiliateId` (other than the node itself),
ordered by path length, then sequentially recompute each one's
`level`/`path` from its parent's current row. -/
def updateDescendants (db : HierDb) (affiliateId : Nat) : HierDb :=
  let snapshot :=
    sortByPathLen (db.filter
      (fun r => r.path.contains affiliateId &&
                r.affiliate_id != affiliateId && r.active))
  (snapshot.map (fun r => (r.affiliate_id, r.parent_id))).foldl updDescStep db

/-- The "compute level and path" block that `upsertAffiliate` and
`updateAffiliateParent` both contain verbatim: root values `1`/`[id]` when
the parent id is null or no active parent row is found, otherwise the
parent row's `level + 1` and `path ++ [id]`. -/
def newLevelPath (db : HierDb) (affiliateId : Nat)
    (parentId : Option Nat) : Nat × List Nat :=
  match parentId with
  | none => (1, [affiliateId])
  | some p =>
    match findActiveRow db p with
    | some parent => (parent.level + 1, parent.path ++ [affiliateId])
    | none => (1, [affiliateId])

/-- Embedding of `MLMModel.updateAffiliateParent(client, affiliateId, newParentId)`:
recompute the node's `level`/`path` from the new parent (note the new
parent id is stored even when that parent row is not found active), write
the row, then cascade to descendants. -/
def updateAffiliateParent (db : HierDb) (affiliateId : Nat)
    (newParentId : Option Nat) : HierDb :=
  updateDescendants
    (setRow db affiliateId
      (fun r => { r with parent_id := newParentId
                         level := (newLevelPath db affiliateId newParentId).1
                         path := (newLevelPath db affiliateId newParentId).2 }))
    affiliateId

/-- Embedding of `MLMModel.upsertAffiliate(affiliateId, parentId)`: if a row with the id
exists and its parent differs, delegate to `updateAffiliateParent`; if it
exists with the same parent, no-op; otherwise insert a new row whose
`level`/`path` come from `newLevelPath` (the given `parent_id` is stored
even when the parent row is absent or inactive). -/
def upsertAffiliate (db : HierDb) (affiliateId : Nat)
    (parentId : Option Nat) : HierDb :=
  match findRow db affiliateId with
  | some existing =>
    if existing.parent_id ≠ parentId then
      updateAffiliateParent db affiliateId parentId
    else db
  | none =>
    db ++ [{ affiliate_id := affiliateId, parent_id := parentId,
             level := (newLevelPath db affiliateId parentId).1,
             path := (newLevelPath db affiliateId parentId).2,
             active := true }]

/-- Fold a list of `(affiliateId, parentId)` operations through
`upsertAffiliate` starting from the empty table. -/
def applyUpserts (ops : List (Nat × Option Nat)) : HierDb :=
  ops.foldl (fun db op => upsertAffiliate db op.1 op.2) []

/-- One row produced by the recursive upline CTE of
`MLMModel.getAffiliateUpline`. -/
structure UplineEntry where
  affiliate_id : Nat
  parent_id : Option Nat
  level : Nat
  path : List Nat
  upline_level : Nat
deriving DecidableEq, Repr

/-- Recursive member of the upline CTE: from a row at `upline_level = k`,
join the active row whose id equals its `parent_id` and emit it at level
`k + 1`; the fuel argument is the remaining number of permitted hops
(`ut.upline_level < maxLevels`). -/
def uplineAux (db : HierDb) : Nat → Option Nat → Nat → List UplineEntry
  | 0, _, _ => []
  | _, none, _ => []
  | fuel + 1, some pid, k =>
    match findActiveRow db pid with
    | none => []
    | some r =>
      { affiliate_id := r.affiliate_id, parent_id := r.parent_id,
        level := r.level, path := r.path, upline_level := k + 1 } ::
        uplineAux db fuel r.parent_id (k + 1)

/-- Embedding of `MLMModel.getAffiliateUpline(affiliateId, maxLevels)`: anchor on the
active row of the queried id at `upline_level = 1`, recurse through active
parents while `upline_level < maxLevels`, and return the rows with
`upline_level > 1` ordered by `upline_level`. -/
def getAffiliateUpline (db : HierDb) (affiliateId : Nat)
    (maxLevels : Nat) : List UplineEntry :=
  match findActiveRow db affiliateId with
  | none => []
  | some r => uplineAux db (maxLevels - 1) r.parent_id 1

/-- Measured attributes of a commission (CPA) event, as read by
`MLMService.validateCpa` and `processCpaForDistribution`. -/
structure CpaData where
  amount : ℚ
  depositAmount : ℚ
  betsCount : ℚ
  totalBetAmount : ℚ
  daysActive : ℚ
deriving DecidableEq, Repr

/-- One validation criterion: `{type, value, enabled}`. -/
structure Criterion where
  type : String
  value : ℚ
  enabled : Bool
deriving DecidableEq, Repr

/-- One rule group: `{operator, criteria}`.  `criteria := none` models a
group object whose `criteria` field is missing or not iterable, which makes
the `for (const criteria of group.criteria)` loop of the source throw. -/
structure RuleGroup where
  operator : String
  criteria : Option (List Criterion)
deriving DecidableEq, Repr

/-- A rule set: `{groups, group_operator}`.  `groups := none` models a rule
object without a `groups` field. -/
structure RuleSet where
  groups : Option (List RuleGroup)
  group_operator : String
deriving DecidableEq, Repr

/-- The `switch (criteria.type)` of `validateCpa`: compare the matching
measured attribute against the threshold; unknown types yield `false`. -/
def evalCriterion (cpa : CpaData) (c : Criterion) : Bool :=
  if c.type == "deposit" then decide (cpa.depositAmount ≥ c.value)
  else if c.type == "bets" then decide (cpa.betsCount ≥ c.value)
  else if c.type == "bet_amount" then decide (cpa.totalBetAmount ≥ c.value)
  else if c.type == "days_active" then decide (cpa.daysActive ≥ c.value)
  else false

/-- Results of a group's enabled criteria (disabled ones are skipped by
`continue`, so they are not collected at all). -/
def enabledResults (cpa : CpaData) (cs : List Criterion) : List Bool :=
  (cs.filter (fun c => c.enabled)).map (evalCriterion cpa)

/-- Combination used both for one group and for the top level: when the
operator string equals AND, every collected result must be true; any other
operator means OR, at least one result true. -/
def combineBools (op : String) (rs : List Bool) : Bool :=
  if op == "AND" then rs.all (fun b => b) else rs.any (fun b => b)

/-- Evaluate one group; a group whose `criteria` is missing/not iterable
raises (modelled as `Except.error`). -/
def evalGroup (cpa : CpaData) (g : RuleGroup) : Except Unit Bool :=
  match g.criteria with
  | none => Except.error ()
  | some cs => Except.ok (combineBools g.operator (enabledResults cpa cs))

/-- Evaluate the groups in order, propagating the first raised error (the
JS loop throws out of `validateCpa` at that point). -/
def evalGroups (cpa : CpaData) : List RuleGroup → Except Unit (List Bool)
  | [] => Except.ok []
  | g :: gs =>
    match evalGroup cpa g with
    | Except.error e => Except.error e
    | Except.ok b =>
      match evalGroups cpa gs with
      | Except.error e => Except.error e
      | Except.ok bs => Except.ok (b :: bs)

/-- Embedding of `MLMService.validateCpa(userId, cpaData, validationRules)`: null rules,
a missing `groups` field, or zero groups approve by default; otherwise the
groups are evaluated and combined by `group_operator`, and any exception
during evaluation is caught, returning `false`. -/
def validateCpa (cpa : CpaData) (rules : Option RuleSet) : Bool :=
  match rules with
  | none => true
  | some r =>
    match r.groups with
    | none => true
    | some gs =>
      if gs.length == 0 then true
      else
        match evalGroups cpa gs with
        | Except.error _ => false
        | Except.ok groupResults => combineBools r.group_operator groupResults

/-- The `mlm_settings` configuration object fields used by the engine.
`currency := none` models a settings object without a `currency` field
(the source falls back via `mlmSettings.currency || BRL`). -/
structure MlmSettings where
  max_hierarchy_levels : Nat
  minimum_amount : ℚ
  currency : Option String
deriving DecidableEq, Repr

/-- The `cpa_level_amounts` payout table: pairs (level, amount); a missing
level key reads as JS `undefined`. -/
abbrev CpaTable := List (Nat × ℚ)

/-- Lookup `cpaAmounts[levelKey]` with `levelKey = level_<lvl>`. -/
def lookupLevelAmount (table : CpaTable) (lvl : Nat) : Option ℚ :=
  match table.find? (fun kv => kv.1 == lvl) with
  | some kv => some kv.2
  | none => none

/-- One pending distribution pushed by `calculateDistributions`. -/
structure Distribution where
  affiliate_id : Nat
  affiliate_level : Nat
  amount : ℚ
  currency : String
deriving DecidableEq, Repr

/-- Loop body of `MLMService.calculateDistributions`: read the table
amount for the entry's `upline_level` (a missing key is JS `undefined`,
which fails the `amount &&` guard) and push a distribution when the amount
is truthy (`amount &&`, i.e. non-zero), strictly positive, and the level
does not exceed `max_hierarchy_levels`. -/
def calcStep (cpaAmounts : CpaTable) (ms : MlmSettings)
    (dists : List Distribution) (a : UplineEntry) : List Distribution :=
  match lookupLevelAmount cpaAmounts a.upline_level with
  | none => dists
  | some amount =>
    if amount ≠ 0 ∧ 0 < amount ∧
        a.upline_level ≤ ms.max_hierarchy_levels then
      dists ++ [{ affiliate_id := a.affiliate_id,
                  affiliate_level := a.upline_level,
                  amount := amount,
                  currency := ms.currency.getD ("BRL") }]
    else dists

/-- Embedding of `MLMService.calculateDistributions(upline, cpaAmounts, mlmSettings)`:
fold the loop body over the upline, starting from the empty array. -/
def calculateDistributions (upline : List UplineEntry) (cpaAmounts : CpaTable)
    (ms : MlmSettings) : List Distribution :=
  upline.foldl (calcStep cpaAmounts ms) []

/-- A persisted row of `cpa_distributions` (fields the claims speak about;
the generated transaction id and timestamps are not modelled). -/
structure DistRecord where
  affiliate_id : Nat
  affiliate_level : Nat
  original_amount : ℚ
  distributed_amount : ℚ
deriving DecidableEq, Repr

/-- Embedding of `MLMService.executeCpaDistribution`: a distribution below
`mlm_settings.minimum_amount` is not saved — the function returns `null`
(`none`); otherwise the distribution row is saved and returned. -/
def executeCpaDistribution (ms : MlmSettings) (d : Distribution) :
    Option DistRecord :=
  if d.amount < ms.minimum_amount then none
  else some { affiliate_id := d.affiliate_id,
              affiliate_level := d.affiliate_level,
              original_amount := d.amount,
              distributed_amount := d.amount }

/-- The reduce `distributionResults.reduce((sum, d) => sum + d.distributed_amount, 0)`:
reading `distributed_amount` of a `null` entry raises a TypeError,
modelled as `Except.error`. -/
def sumDistributed : List (Option DistRecord) → ℚ → Except Unit ℚ
  | [], acc => Except.ok acc
  | some r :: rest, acc => sumDistributed rest (acc + r.distributed_amount)
  | none :: _, _ => Except.error ()

/-- One `mlm_statistics` value row (the columns written by the engine). -/
structure AffStats where
  total_cpas : Nat
  total_amount : ℚ
  level_1_cpas : Nat
  level_1_amount : ℚ
  level_2_cpas : Nat
  level_2_amount : ℚ
  level_3_cpas : Nat
  level_3_amount : ℚ
  level_4_cpas : Nat
  level_4_amount : ℚ
  level_5_cpas : Nat
  level_5_amount : ℚ
deriving DecidableEq, Repr

/-- The zero-initialised per-affiliate accumulator of
`MLMService.updateStatistics`. -/
def emptyStats : AffStats :=
  { total_cpas := 0, total_amount := 0,
    level_1_cpas := 0, level_1_amount := 0,
    level_2_cpas := 0, level_2_amount := 0,
    level_3_cpas := 0, level_3_amount := 0,
    level_4_cpas := 0, level_4_amount := 0,
    level_5_cpas := 0, level_5_amount := 0 }

/-- Updates `stats[level_<lvl>_cpas] += 1; stats[level_<lvl>_amount] += amount`.
Only levels 1..5 have columns; `calculateDistributions` produces levels
bounded by `max_hierarchy_levels`, and every theorem below stays in 1..5. -/
def addLevel (s : AffStats) (lvl : Nat) (amt : ℚ) : AffStats :=
  match lvl with
  | 1 => { s with level_1_cpas := s.level_1_cpas + 1,
                  level_1_amount := s.level_1_amount + amt }
  | 2 => { s with level_2_cpas := s.level_2_cpas + 1,
                  level_2_amount := s.level_2_amount + amt }
  | 3 => { s with level_3_cpas := s.level_3_cpas + 1,
                  level_3_amount := s.level_3_amount + amt }
  | 4 => { s with level_4_cpas := s.level_4_cpas + 1,
                  level_4_amount := s.level_4_amount + amt }
  | 5 => { s with level_5_cpas := s.level_5_cpas + 1,
                  level_5_amount := s.level_5_amount + amt }
  | _ => s

/-- Fold one distribution into an affiliate's accumulator
(`total_cpas += 1; total_amount += amount;` plus the level columns). -/
def addDist (s : AffStats) (d : Distribution) : AffStats :=
  addLevel
    { s with total_cpas := s.total_cpas + 1
             total_amount := s.total_amount + d.amount }
    d.affiliate_level d.amount

/-- Accumulator the service builds for one affiliate from the batch: the
contributions of every distribution of that affiliate, in batch order. -/
def statsFor (ds : List Distribution) (aid : Nat) : AffStats :=
  (ds.filter (fun d => d.affiliate_id == aid)).foldl addDist emptyStats

/-- First occurrences of the affiliate ids in a batch, in order (the
iteration order of the JS `Map` keyed by affiliate id). -/
def dedupFirst : List Nat → List Nat
  | [] => []
  | x :: xs => x :: (dedupFirst xs).filter (fun y => y ≠ x)

/-- The `mlm_statistics` table, keyed by (affiliate id, period). -/
abbrev StatsDb := List ((Nat × Nat) × AffStats)

/-- Embedding of `MLMModel.updateAffiliateStatistics`: `INSERT ... ON CONFLICT
(affiliate_id, period_start, period_end) DO UPDATE SET <column> =
EXCLUDED.<column>` — when the key exists, the stored row is replaced by
the supplied values; otherwise a new row is inserted. -/
def updateAffiliateStatistics (sdb : StatsDb) (key : Nat × Nat)
    (stats : AffStats) : StatsDb :=
  if sdb.any (fun kv => kv.1 == key) then
    sdb.map (fun kv => if kv.1 == key then (key, stats) else kv)
  else sdb ++ [(key, stats)]

/-- Embedding of `MLMService.updateStatistics(distributions)`: group the batch by
affiliate id, then write each affiliate's accumulator for the current
period through `updateAffiliateStatistics`. -/
def updateStatistics (sdb : StatsDb) (period : Nat)
    (ds : List Distribution) : StatsDb :=
  (dedupFirst (ds.map (fun d => d.affiliate_id))).foldl
    (fun acc aid => updateAffiliateStatistics acc (aid, period)
      (statsFor ds aid))
    sdb

/-- Hard-coded fallback of `ConfigClient.getCpaLevelAmounts` (returned on
any provider error). -/
def defaultCpaLevelAmounts : CpaTable :=
  [(1, 50), (2, 20), (3, 5), (4, 5), (5, 5)]

/-- Hard-coded fallback of `ConfigClient.getCpaValidationRules` (returned
on any provider error): `{groups: [], group_operator: OR}`. -/
def defaultValidationRules : RuleSet :=
  { groups := some [], group_operator := "OR" }

instance {ε α : Type} [DecidableEq ε] [DecidableEq α] :
    DecidableEq (Except ε α) := fun a b =>
  match a, b with
  | Except.ok x, Except.ok y =>
    if h : x = y then isTrue (by rw [h]) else isFalse (by simp [h])
  | Except.error x, Except.error y =>
    if h : x = y then isTrue (by rw [h]) else isFalse (by simp [h])
  | Except.ok _, Except.error _ => isFalse (by simp)
  | Except.error _, Except.ok _ => isFalse (by simp)

/-- Result of one `processCpaForDistribution` call: the outcome the caller
observes (the returned total or the thrown error message) together with
the side effects already applied when the outcome is produced (persisted
distribution rows and the statistics table). -/
structure ProcResult where
  outcome : Except String ℚ
  persisted : List DistRecord
  statsDb : StatsDb
deriving DecidableEq, Repr

/-- Embedding of `MLMService.processCpaForDistribution` with the configuration fetch
inlined.  `down = true` models the external configuration provider being
unreachable with empty caches: `ConfigClient.getConfig` then yields the
hard-coded CPA fallbacks for `cpa_level_amounts` and
`cpa_validation_rules`, but for `mlm_settings` it returns the
caller-supplied default, which `MLMService.getConfig` leaves at `null`;
the subsequent `mlmSettings.max_hierarchy_levels` access throws.  After
validation the pipeline follows the source order: resolve upline,
calculate, execute each distribution (collecting `null` for the dropped
ones), update statistics from the *full* distribution list, then reduce
the results into the returned total. -/
def processCpaForDistribution (down : Bool) (remoteAmounts : CpaTable)
    (remoteSettings : MlmSettings) (remoteRules : Option RuleSet)
    (db : HierDb) (sdb : StatsDb) (period : Nat) (affiliateId : Nat)
    (cpa : CpaData) : ProcResult :=
  let cpaAmounts := if down then defaultCpaLevelAmounts else remoteAmounts
  let mlmSettings : Option MlmSettings :=
    if down then none else some remoteSettings
  let validationRules : Option RuleSet :=
    if down then some defaultValidationRules else remoteRules
  if validateCpa cpa validationRules = false then
    { outcome := Except.error ("CPA nao atende aos criterios de validacao"),
      persisted := [], statsDb := sdb }
  else
    match mlmSettings with
    | none =>
      { outcome := Except.error
          ("TypeError: cannot read max_hierarchy_levels of null"),
        persisted := [], statsDb := sdb }
    | some ms =>
      let upline := getAffiliateUpline db affiliateId ms.max_hierarchy_levels
      let distributions := calculateDistributions upline cpaAmounts ms
      let results := distributions.map (executeCpaDistribution ms)
      let sdb2 := updateStatistics sdb period distributions
      match sumDistributed results 0 with
      | Except.ok total =>
        { outcome := Except.ok total,
          persisted := results.filterMap (fun r => r), statsDb := sdb2 }
      | Except.error _ =>
        { outcome := Except.error
            ("TypeError: cannot read distributed_amount of null"),
          persisted := results.filterMap (fun r => r), statsDb := sdb2 }

/-- Per-entry acceptance condition for `calculateDistributions`, written
from the spec: a table value is present, strictly positive, and the
entry's level is at most the configured maximum. -/
def qualifiesLevel (cpaAmounts : CpaTable) (ms : MlmSettings)
    (a : UplineEntry) : Bool :=
  match lookupLevelAmount cpaAmounts a.upline_level with
  | none => false
  | some amount =>
    decide (0 < amount) && decide (a.upline_level ≤ ms.max_hierarchy_levels)

/-- The distribution emitted for a qualifying upline entry, written from
the spec: the amount is the table's flat amount for the entry's level. -/
def distFor (cpaAmounts : CpaTable) (ms : MlmSettings)
    (a : UplineEntry) : Distribution :=
  { affiliate_id := a.affiliate_id,
    affiliate_level := a.upline_level,
    amount := (lookupLevelAmount cpaAmounts a.upline_level).getD 0,
    currency := ms.currency.getD ("BRL") }

/-- Modelled from the spec wording of the amended C5 statement: the raw
ancestor chain obtained by following stored parent pointers regardless of
activity status (the pointers an inactive node still carries). -/
def rawParentChain (db : HierDb) : Nat → Option Nat → List Row
  | 0, _ => []
  | _ + 1, none => []
  | fuel + 1, some pid =>
    match findRow db pid with
    | none => []
    | some r => r :: rawParentChain db fuel r.parent_id

/-- Label chain rows with consecutive `upline_level` numbers starting
at `k`. -/
def numberEntries : Nat → List Row → List UplineEntry
  | _, [] => []
  | k, r :: rs =>
    { affiliate_id := r.affiliate_id, parent_id := r.parent_id,
      level := r.level, path := r.path, upline_level := k } ::
      numberEntries (k + 1) rs

/-- The schema constraint `UNIQUE (affiliate_id)` of `mlm_hierarchy`. -/
def NoDupIds (db : HierDb) : Prop := (db.map Row.affiliate_id).Nodup

instance (db : HierDb) : Decidable (NoDupIds db) := by
  unfold NoDupIds; infer_instance

/-- The per-row invariant claimed by the spec for every reachable row:
`len(path) == level`, `path[last] == participant_id`, and the participant
at `path[0]` has no parent. -/
def rowClaimC6 (db : HierDb) (r : Row) : Bool :=
  (r.path.length == r.level) &&
  (r.path.getLast? == some r.affiliate_id) &&
  db.all (fun q =>
    !(r.path.head? == some q.affiliate_id) || q.parent_id == none)

/-- The spec's invariant quantified over the whole table. -/
def hierInvariantClaim (db : HierDb) : Bool := db.all (rowClaimC6 db)

/-- The two row conjuncts that actually are invariant under the code's
upsert operations. -/
def RowLenLast (r : Row) : Prop :=
  r.path.length = r.level ∧ r.path.getLast? = some r.affiliate_id

/-- Property `RowLenLast` for every row of the table. -/
def InvLenLast (db : HierDb) : Prop := ∀ r ∈ db, RowLenLast r

/-- Hierarchy settings used by the concrete examples: 5 levels, minimum
payout `0.01`, currency BRL (the defaults of `ConfigClient.getMlmSettings`). -/
def msStd : MlmSettings :=
  { max_hierarchy_levels := 5, minimum_amount := 1/100,
    currency := some ("BRL") }

/-- A commission event's measured attributes used by concrete examples. -/
def cpaEx : CpaData :=
  { amount := 100, depositAmount := 50, betsCount := 10,
    totalBetAmount := 200, daysActive := 7 }

/-- Hierarchy with participant 1 a root and participant 2 its child
(so 1 appears in 2's path). -/
def dbPair : HierDb := applyUpserts [(1, none), (2, some 1)]

/-- Hierarchy 3 ← 2 ← 1 in which the middle ancestor 2 is inactive while
the root 3 and the leaf 1 are active. -/
def dbInactiveMid : HierDb :=
  [{ affiliate_id := 3, parent_id := none, level := 1, path := [3],
     active := true },
   { affiliate_id := 2, parent_id := some 3, level := 2, path := [3, 2],
     active := false },
   { affiliate_id := 1, parent_id := some 2, level := 3, path := [3, 2, 1],
     active := true }]

/-- The spec's example upline `[{id:456, level:2}, {id:789, level:3}]`. -/
def uplineEx : List UplineEntry :=
  [{ affiliate_id := 456, parent_id := none, level := 2, path := [],
     upline_level := 2 },
   { affiliate_id := 789, parent_id := none, level := 3, path := [],
     upline_level := 3 }]

/-- A computed distribution of `0.005`, strictly below the configured
minimum payout `0.01` of `msStd`. -/
def dLow : Distribution :=
  { affiliate_id := 2, affiliate_level := 1, amount := 1/200,
    currency := "BRL" }

/-- A previously stored statistics row: five distributions totalling 100,
all at level 1. -/
def prevStats : AffStats :=
  { emptyStats with total_cpas := 5, total_amount := 100,
                    level_1_cpas := 5, level_1_amount := 100 }

/-- A batch carrying one new level-1 distribution of 20 for affiliate 1. -/
def batchOne : List Distribution :=
  [{ affiliate_id := 1, affiliate_level := 1, amount := 20,
     currency := "BRL" }]

/-- A disabled criterion. -/
def critDisabled : Criterion :=
  { type := "deposit", value := 1, enabled := false }

/-- A malformed group: its `criteria` field is missing, so iterating it
throws in the source. -/
def groupMalformed : RuleGroup := { operator := "AND", criteria := none }

theorem findActiveRow_mem {db : HierDb} {p : Nat} {r : Row}
    (h : findActiveRow db p = some r) : r ∈ db :=
  List.mem_of_find?_eq_some h

theorem newLevelPath_ok {db : HierDb} (hdb : InvLenLast db) (a : Nat)
    (p : Option Nat) :
    (newLevelPath db a p).2.length = (newLevelPath db a p).1 ∧
      (newLevelPath db a p).2.getLast? = some a := by
  cases p with
  | none => exact ⟨rfl, rfl⟩
  | some pp =>
    cases hfind : findActiveRow db pp with
    | none => simp [newLevelPath, hfind]
    | some parent =>
      have hpar : RowLenLast parent := hdb parent (findActiveRow_mem hfind)
      simp only [newLevelPath, hfind]
      refine ⟨?_, List.getLast?_concat _⟩
      simp [hpar.1]

theorem setRow_inv {db : HierDb} {id : Nat} {f : Row → Row}
    (hdb : InvLenLast db)
    (hf : ∀ r ∈ db, r.affiliate_id = id → RowLenLast (f r)) :
    InvLenLast (setRow db id f) := by
  intro r hr
  rcases List.mem_map.mp hr with ⟨q, hq, hqr⟩
  by_cases hid : q.affiliate_id = id
  · rw [← hqr, if_pos (by simpa using hid)]
    exact hf q hq hid
  · rw [← hqr, if_neg (by simpa using hid)]
    exact hdb q hq

theorem updDescStep_inv (db : HierDb) (pair : Nat × Option Nat)
    (hdb : InvLenLast db) : InvLenLast (updDescStep db pair) := by
  unfold updDescStep
  split
  · exact hdb
  · split
    · exact hdb
    · next parent hfind =>
      apply setRow_inv hdb
      intro r _ hrid
      have hpar : RowLenLast parent := hdb parent (findActiveRow_mem hfind)
      unfold RowLenLast
      constructor
      · show (parent.path ++ [pair.1]).length = parent.level + 1
        simp [hpar.1]
      · show (parent.path ++ [pair.1]).getLast? = some r.affiliate_id
        rw [hrid]
        exact List.getLast?_concat _

theorem foldl_updDescStep_inv (pairs : List (Nat × Option Nat)) :
    ∀ db : HierDb, InvLenLast db → InvLenLast (pairs.foldl updDescStep db) := by
  induction pairs with
  | nil => intro db h; exact h
  | cons p ps ih => intro db h; exact ih _ (updDescStep_inv db p h)

theorem updateDescendants_inv (db : HierDb) (a : Nat)
    (hdb : InvLenLast db) : InvLenLast (updateDescendants db a) := by
  unfold updateDescendants
  exact foldl_updDescStep_inv _ db hdb

theorem updateAffiliateParent_inv (db : HierDb) (a : Nat) (p : Option Nat)
    (hdb : InvLenLast db) : InvLenLast (updateAffiliateParent db a p) := by
  unfold updateAffiliateParent
  apply updateDescendants_inv
  apply setRow_inv hdb
  intro r _ hrid
  have h := newLevelPath_ok hdb a p
  unfold RowLenLast
  refine ⟨h.1, ?_⟩
  show (newLevelPath db a p).2.getLast? = some r.affiliate_id
  rw [hrid]
  exact h.2

theorem upsertAffiliate_inv (db : HierDb) (a : Nat) (p : Option Nat)
    (hdb : InvLenLast db) : InvLenLast (upsertAffiliate db a p) := by
  unfold upsertAffiliate
  split
  · split
    · exact updateAffiliateParent_inv db a p hdb
    · exact hdb
  · intro r hr
    rcases List.mem_append.mp hr with h | h
    · exact hdb r h
    · have hr2 := List.mem_singleton.mp h
      subst hr2
      have h := newLevelPath_ok hdb a p
      exact ⟨h.1, h.2⟩

theorem applyUpserts_inv (ops : List (Nat × Option Nat)) :
    InvLenLast (applyUpserts ops) := by
  unfold applyUpserts
  have main : ∀ (l : List (Nat × Option Nat)) (db : HierDb), InvLenLast db →
      InvLenLast (l.foldl (fun db op => upsertAffiliate db op.1 op.2) db) := by
    intro l
    induction l with
    | nil => intro db h; exact h
    | cons o os ih => intro db h; exact ih _ (upsertAffiliate_inv db o.1 o.2 h)
  exact main ops [] (by intro r hr; cases hr)

/-- C6 (amended): every participant row reachable by any sequence of
`upsertAffiliate` operations satisfies `len(path) == level` and
`path[last] == participant_id`.  (The claim's third conjunct — that the
participant at `path[0]` is a root — does not hold; see the
counterexample.) -/
theorem upsert_reachable_len_and_last (ops : List (Nat × Option Nat))
    (r : Row) (hr : r ∈ applyUpserts ops) :
    r.path.length = r.level ∧ r.path.getLast? = some r.affiliate_id :=
  applyUpserts_inv ops r hr

/-- Witness for the amended C6 theorem at the one-operation sequence
`upsert(1, null)`. -/
theorem upsert_reachable_len_and_last_witness :
    ({ affiliate_id := 1, parent_id := none, level := 1, path := [1],
       active := true } : Row) ∈ applyUpserts [(1, none)] ∧
    (({ affiliate_id := 1, parent_id := none, level := 1, path := [1],
        active := true } : Row).path.length = 1 ∧
      ([1] : List Nat).getLast? = some 1) :=
  ⟨by decide, upsert_reachable_len_and_last [(1, none)] _ (by decide)⟩

/-- C6 counterexample: after `upsert(1, null); upsert(2, 1); upsert(1, 2)`
(re-parenting 1 under its descendant 2 — every referenced participant
exists), node 1 has `path = [1, 2, 1]` whose head participant 1 carries
`parent_id = 2`, so the claimed invariant "path[0] is a root" is false. -/
theorem hierInvariantClaim_fails :
    hierInvariantClaim (applyUpserts [(1, none), (2, some 1), (1, some 2)]) =
      false := by decide

theorem findActiveRow_eq_of_nodup {db : HierDb} (h : NoDupIds db) (x : Nat) :
    findActiveRow db x =
      match findRow db x with
      | none => none
      | some r => if r.active then some r else none := by
  induction db with
  | nil => rfl
  | cons q rest ih =>
    have hnd := (List.nodup_cons.mp h)
    have ih2 := ih hnd.2
    by_cases hq : q.affiliate_id = x
    · by_cases ha : q.active = true
      · simp [findActiveRow, findRow, List.find?_cons, hq, ha]
      · have hnone : List.find? (fun r => r.affiliate_id == x && r.active)
            rest = none := by
          rw [List.find?_eq_none]
          intro r hr
          simp only [Bool.and_eq_true, beq_iff_eq, not_and]
          intro hid
          exfalso
          apply hnd.1
          have hmem : r.affiliate_id ∈ List.map Row.affiliate_id rest :=
            List.mem_map_of_mem Row.affiliate_id hr
          rw [hq, ← hid]
          exact hmem
        simp [findActiveRow, findRow, List.find?_cons, hq, ha, hnone]
    · have hbeq : (q.affiliate_id == x) = false := by
        simp [hq]
      simp only [findActiveRow, findRow] at ih2 ⊢
      simp [List.find?_cons, hbeq, ih2]

theorem uplineAux_eq_takeWhile {db : HierDb} (h : NoDupIds db) :
    ∀ (fuel : Nat) (p : Option Nat) (k : Nat),
      uplineAux db fuel p k =
        numberEntries (k + 1)
          ((rawParentChain db fuel p).takeWhile (fun q => q.active)) := by
  intro fuel
  induction fuel with
  | zero => intro p k; cases p <;> rfl
  | succ n ih =>
    intro p k
    cases p with
    | none => rfl
    | some pid =>
      simp only [uplineAux, rawParentChain, findActiveRow_eq_of_nodup h]
      cases hfr : findRow db pid with
      | none => rfl
      | some r =>
        by_cases ha : r.active = true
        · simp [ha, List.takeWhile_cons, numberEntries, ih]
        · simp [ha, List.takeWhile_cons, numberEntries]

/-- C5 (amended): an inactive ancestor is excluded from the upline but
also *truncates* it — `getAffiliateUpline` returns exactly the maximal
all-active prefix of the raw parent chain (numbered from `upline_level`
2), so no ancestor beyond the first inactive node is ever returned. -/
theorem upline_is_active_prefix_of_chain (db : HierDb) (h : NoDupIds db)
    (affiliateId maxLevels : Nat) :
    getAffiliateUpline db affiliateId maxLevels =
      match findActiveRow db affiliateId with
      | none => []
      | some r =>
        numberEntries 2
          ((rawParentChain db (maxLevels - 1) r.parent_id).takeWhile
            (fun q => q.active)) := by
  unfold getAffiliateUpline
  cases findActiveRow db affiliateId with
  | none => rfl
  | some r => exact uplineAux_eq_takeWhile h (maxLevels - 1) r.parent_id 1

/-- Witness for the amended C5 theorem on the concrete three-node chain
with an inactive middle ancestor. -/
theorem upline_is_active_prefix_of_chain_witness :
    NoDupIds dbInactiveMid ∧
    getAffiliateUpline dbInactiveMid 1 5 =
      match findActiveRow dbInactiveMid 1 with
      | none => []
      | some r =>
        numberEntries 2
          ((rawParentChain dbInactiveMid (5 - 1) r.parent_id).takeWhile
            (fun q => q.active)) :=
  ⟨by decide, upline_is_active_prefix_of_chain dbInactiveMid (by decide) 1 5⟩

/-- C5 counterexample: in the chain 3 (active) ← 2 (inactive) ← 1
(active), the upline of 1 is empty — the active root 3 above the inactive
ancestor 2 is *not* returned, so resolution does not continue through
inactive nodes as the claim states. -/
theorem upline_stops_at_inactive_ancestor :
    getAffiliateUpline dbInactiveMid 1 5 = [] ∧
    (findRow dbInactiveMid 3).map Row.active = some true ∧
    (findRow dbInactiveMid 2).map Row.active = some false ∧
    (findRow dbInactiveMid 2).map Row.parent_id = some (some 3) := by
  decide

theorem calcStep_foldl (cpaAmounts : CpaTable) (ms : MlmSettings) :
    ∀ (upline : List UplineEntry) (acc : List Distribution),
      upline.foldl (calcStep cpaAmounts ms) acc =
        acc ++ (upline.filter (qualifiesLevel cpaAmounts ms)).map
          (distFor cpaAmounts ms) := by
  intro upline
  induction upline with
  | nil => intro acc; simp
  | cons a rest ih =>
    intro acc
    rw [List.foldl_cons, ih]
    cases hl : lookupLevelAmount cpaAmounts a.upline_level with
    | none =>
      simp [calcStep, qualifiesLevel, hl, List.filter_cons]
    | some amount =>
      by_cases hq : 0 < amount ∧ a.upline_level ≤ ms.max_hierarchy_levels
      · have hcond : amount ≠ 0 ∧ 0 < amount ∧
            a.upline_level ≤ ms.max_hierarchy_levels :=
          ⟨ne_of_gt hq.1, hq.1, hq.2⟩
        simp [calcStep, qualifiesLevel, distFor, hl, hcond, hq.1, hq.2,
          List.filter_cons]
      · have hcond : ¬(amount ≠ 0 ∧ 0 < amount ∧
            a.upline_level ≤ ms.max_hierarchy_levels) := by
          intro hc
          exact hq ⟨hc.2.1, hc.2.2⟩
        have hqb : qualifiesLevel cpaAmounts ms a = false := by
          simp only [qualifiesLevel, hl, Bool.and_eq_false_iff]
          rcases Decidable.not_and_iff_or_not.mp hq with hc | hc
          · exact Or.inl (by simpa using hc)
          · exact Or.inr (by simpa using hc)
        simp [calcStep, hl, hcond, hqb, List.filter_cons]

/-- C7: `calculateDistributions` emits exactly one distribution per upline
entry whose level has a present, strictly positive table value and lies
within `max_hierarchy_levels` — carrying the table's flat amount for that
level — and nothing for any other entry; on the spec's example upline the
table `{level_2: 20, level_3: 5}` yields two distributions totalling 25,
and `{level_2: 0, level_3: 5}` yields exactly the level-3 distribution. -/
theorem calculateDistributions_spec :
    (∀ (upline : List UplineEntry) (cpaAmounts : CpaTable)
        (ms : MlmSettings),
      calculateDistributions upline cpaAmounts ms =
        (upline.filter (qualifiesLevel cpaAmounts ms)).map
          (distFor cpaAmounts ms)) ∧
    calculateDistributions uplineEx [(2, 20), (3, 5)] msStd =
      [{ affiliate_id := 456, affiliate_level := 2, amount := 20,
         currency := "BRL" },
       { affiliate_id := 789, affiliate_level := 3, amount := 5,
         currency := "BRL" }] ∧
    ((calculateDistributions uplineEx [(2, 20), (3, 5)] msStd).map
      Distribution.amount).sum = 25 ∧
    calculateDistributions uplineEx [(2, 0), (3, 5)] msStd =
      [{ affiliate_id := 789, affiliate_level := 3, amount := 5,
         currency := "BRL" }] := by
  have hgen : ∀ (upline : List UplineEntry) (cpaAmounts : CpaTable)
      (ms : MlmSettings),
      calculateDistributions upline cpaAmounts ms =
        (upline.filter (qualifiesLevel cpaAmounts ms)).map
          (distFor cpaAmounts ms) := by
    intro upline cpaAmounts ms
    unfold calculateDistributions
    rw [calcStep_foldl]
    simp
  refine ⟨hgen, ?_, ?_, ?_⟩
  · norm_num [hgen, uplineEx, msStd, qualifiesLevel, distFor,
      lookupLevelAmount, List.filter_cons]
  · norm_num [hgen, uplineEx, msStd, qualifiesLevel, distFor,
      lookupLevelAmount, List.filter_cons]
  · norm_num [hgen, uplineEx, msStd, qualifiesLevel, distFor,
      lookupLevelAmount, List.filter_cons]

/-- C8: with a null rule set, a rule set without a `groups` field, or a
rule set with zero groups, `validateCpa` approves the event whatever the
measured attributes are. -/
theorem validateCpa_empty_rules_approves :
    ∀ (cpa : CpaData) (gop : String),
      validateCpa cpa none = true ∧
      validateCpa cpa (some { groups := none, group_operator := gop }) =
        true ∧
      validateCpa cpa (some { groups := some [], group_operator := gop }) =
        true :=
  fun _ _ => ⟨rfl, rfl, rfl⟩

/-- C9: a group with zero enabled criteria evaluates to `true` under AND
and to `false` under any other operator (OR), so a rule set consisting of
a single OR group with only disabled criteria is rejected whatever the
attributes and the top-level operator are. -/
theorem orGroup_no_enabled_criteria_rejects (cpa : CpaData)
    (op gop : String) (cs : List Criterion)
    (h : ∀ c ∈ cs, c.enabled = false) :
    evalGroup cpa { operator := op, criteria := some cs } =
      Except.ok (op == ("AND")) ∧
    validateCpa cpa
      (some { groups := some [{ operator := "OR", criteria := some cs }],
              group_operator := gop }) = false := by
  have hfilter : cs.filter (fun c => c.enabled) = [] := by
    rw [List.filter_eq_nil_iff]
    intro c hc
    simp [h c hc]
  have hgroup : ∀ o : String,
      evalGroup cpa { operator := o, criteria := some cs } =
        Except.ok (o == ("AND")) := by
    intro o
    simp only [evalGroup, enabledResults, combineBools, hfilter,
      List.map_nil, List.all_nil, List.any_nil]
    cases ho : (o == ("AND")) <;> simp [ho]
  refine ⟨hgroup op, ?_⟩
  have h1 := hgroup ("OR")
  simp only [validateCpa, evalGroups, h1]
  cases hgo : (gop == ("AND")) <;> simp [combineBools, hgo]

/-- Witness for C9 at a concrete single disabled criterion. -/
theorem orGroup_no_enabled_criteria_rejects_witness :
    evalGroup cpaEx { operator := "OR", criteria := some [critDisabled] } =
      Except.ok (("OR") == ("AND")) ∧
    validateCpa cpaEx
      (some { groups :=
                some [{ operator := "OR", criteria := some [critDisabled] }],
              group_operator := "AND" }) = false :=
  orGroup_no_enabled_criteria_rejects cpaEx ("OR") ("AND") [critDisabled]
    (by decide)

/-- C10: `validateCpa` catches any exception raised while evaluating a
non-empty rule set (here: the first malformed group aborts `evalGroups`
with an error) and returns `false` — the malformed rule set fails closed
while the empty one fails open. -/
theorem validateCpa_catches_eval_errors (cpa : CpaData)
    (gs : List RuleGroup) (gop : String)
    (h : evalGroups cpa gs = Except.error ()) :
    validateCpa cpa (some { groups := some gs, group_operator := gop }) =
      false := by
  cases gs with
  | nil => simp [evalGroups] at h
  | cons g rest => simp [validateCpa, h]

/-- Witness for C10 at a rule set holding one group whose `criteria`
field is missing. -/
theorem validateCpa_catches_eval_errors_witness :
    evalGroups cpaEx [groupMalformed] = Except.error () ∧
    validateCpa cpaEx
      (some { groups := some [groupMalformed], group_operator := "AND" }) =
      false :=
  ⟨rfl, validateCpa_catches_eval_errors cpaEx [groupMalformed] ("AND") rfl⟩

/-- C1 (code behavior at the failing input): for the distribution of
`0.005` with configured minimum `0.01`, `executeCpaDistribution` indeed
returns `null` without persisting a record, but summing the result list
raises (`null.distributed_amount`) instead of skipping the entry, and
`updateStatistics` — called with the *unfiltered* distribution list —
counts the below-minimum amount into the participant's period totals. -/
theorem below_minimum_not_dropped_from_statistics :
    executeCpaDistribution msStd dLow = none ∧
    sumDistributed [executeCpaDistribution msStd dLow] 0 =
      Except.error () ∧
    updateStatistics [] 0 [dLow] =
      [((2, 0),
        { emptyStats with
            total_cpas := 1
            total_amount := 1/200
            level_1_cpas := 1
            level_1_amount := 1/200 })] := by
  with_unfolding_all decide

/-- C2 (code behavior at the failing input): participant 2 is a descendant
of 1 (1 is in 2's path), yet `upsertAffiliate(1, parent 2)` is not
rejected: it re-parents 1 under 2, rewriting both rows (1 ends with
`path = [1, 2, 1]`, 2 with `path = [1, 2, 1, 2]`) — the stored hierarchy
changes and no cycle outcome exists anywhere in the code. -/
theorem reparent_to_descendant_not_rejected :
    (findRow dbPair 2).map Row.path = some [1, 2] ∧
    upsertAffiliate dbPair 1 (some 2) =
      [{ affiliate_id := 1, parent_id := some 2, level := 3,
         path := [1, 2, 1], active := true },
       { affiliate_id := 2, parent_id := some 1, level := 4,
         path := [1, 2, 1, 2], active := true }] ∧
    upsertAffiliate dbPair 1 (some 2) ≠ dbPair := by
  decide

/-- C3 (code behavior at the failing input): applying a batch with one
level-1 distribution of 20 for affiliate 1 to a stored row holding
(5 CPAs, 100.0) *overwrites* the row with the batch's values (1, 20.0)
instead of incrementing it to (6, 120.0). -/
theorem statistics_upsert_overwrites :
    updateStatistics [((1, 0), prevStats)] 0 batchOne =
      [((1, 0),
        { emptyStats with
            total_cpas := 1
            total_amount := 20
            level_1_cpas := 1
            level_1_amount := 20 })] ∧
    updateStatistics [((1, 0), prevStats)] 0 batchOne ≠
      [((1, 0),
        { prevStats with
            total_cpas := 6
            total_amount := 120
            level_1_cpas := 6
            level_1_amount := 120 })] := by
  with_unfolding_all decide

/-- C4 (code behavior at the failing input): with the configuration
provider unreachable and empty caches, `processCpaForDistribution` throws
(`mlm_settings` degrades to `null`, not to the client's defaults, and the
`max_hierarchy_levels` access raises a TypeError that is re-thrown to the
caller), while the identical call with the provider reachable completes
and returns the distributed total. -/
theorem config_unavailable_fails_operation :
    (processCpaForDistribution true [] msStd none dbPair [] 0 2
        cpaEx).outcome =
      Except.error ("TypeError: cannot read max_hierarchy_levels of null") ∧
    (processCpaForDistribution false defaultCpaLevelAmounts msStd none
        dbPair [] 0 2 cpaEx).outcome = Except.ok 20 := by
  constructor
  · rfl
  · with_unfolding_all decide
